import Mathlib

/-!
Shallow embedding of the racing-game AI core (`src/ai_engine/ai_models.py`)
and proofs of the specification claims about it.

Numeric values that the Python code manipulates as floats are modelled as
rationals (exact arithmetic) except where the code takes a square root, where
real numbers are used.  Calls to `random.random()` / `random.uniform` /
`random.choice` are modelled by passing the drawn values in explicitly, so
that every theorem quantifies over all possible outcomes of the draws.
-/

namespace AiModels

/-- The state of `OpponentAI` after `__init__`: the stored difficulty string
and level plus the derived parameters. -/
structure OpponentAI where
  difficulty : String
  level : ℤ
  base_speed : ℚ
  reaction_time : ℚ
  aggression : ℚ
  skill_level : ℚ
  deriving Repr, DecidableEq

/-- `OpponentAI._get_reaction_time`: dictionary lookup with default 0.5. -/
def _get_reaction_time (difficulty : String) : ℚ :=
  if difficulty = "easy" then 0.8
  else if difficulty = "medium" then 0.5
  else if difficulty = "hard" then 0.3
  else if difficulty = "expert" then 0.15
  else 0.5

/-- `OpponentAI._get_aggression`: dictionary lookup with default 0.5. -/
def _get_aggression (difficulty : String) : ℚ :=
  if difficulty = "easy" then 0.3
  else if difficulty = "medium" then 0.5
  else if difficulty = "hard" then 0.7
  else if difficulty = "expert" then 0.9
  else 0.5

/-- `OpponentAI._get_skill_level`: dictionary lookup with default 0.85. -/
def _get_skill_level (difficulty : String) : ℚ :=
  if difficulty = "easy" then 0.7
  else if difficulty = "medium" then 0.85
  else if difficulty = "hard" then 1.0
  else if difficulty = "expert" then 1.2
  else 0.85

/-- `OpponentAI.__init__(difficulty, level)`. -/
def mkOpponentAI (difficulty : String) (level : ℤ) : OpponentAI :=
  { difficulty := difficulty
    level := level
    base_speed := 100
    reaction_time := _get_reaction_time difficulty
    aggression := _get_aggression difficulty
    skill_level := _get_skill_level difficulty }

/-- `OpponentAI.calculate_speed(track_position, obstacles_nearby,
player_distance)`.  The draw `random.uniform(-10, 10)` is passed in as
`noise`.  (`track_position` is accepted but never read by the Python body.) -/
def calculate_speed (ai : OpponentAI) (_track_position : ℚ)
    (obstacles_nearby : Bool) (player_distance : ℚ) (noise : ℚ) : ℚ :=
  let speed := ai.base_speed * ai.skill_level
  let speed := speed + (ai.level : ℚ) * 5
  let speed := if obstacles_nearby then speed * 0.7 else speed
  let speed :=
    if player_distance > 0 then speed * (1 + ai.aggression * 0.2)
    else if player_distance < -100 then speed * 0.9
    else speed
  let speed := speed + noise
  max speed 50

/-- The `game_state` dictionary read by `decide_action`.  Each field is an
`Option` mirroring `dict.get(key, default)`: a `none` stands for an absent
key, on which the Python default is used.  The default for
`obstacle_ahead_distance` is `float(+inf)`, which is never `< 100`, so an
absent key never enters the obstacle branch. -/
structure GameState where
  obstacle_ahead_distance : Option ℚ
  obstacle_left : Option Bool
  obstacle_right : Option Bool
  nitro_available : Option ℚ
  clear_path : Option Bool
  deriving Repr, DecidableEq

/-- The `actions` dictionary built by `decide_action`. -/
structure ActionSet where
  accelerate : Bool
  brake : Bool
  turn_left : Bool
  turn_right : Bool
  use_nitro : Bool
  deriving Repr, DecidableEq

/-- The three `random.random()` values one call of `decide_action` may draw:
`nitro` for the nitro trial `random.random() < aggression`, `err1` for the
mistake trial `random.random() > skill_level`, `err2` for the inner
`random.random() < 0.5` (only consumed when the `err1` trial succeeds; the
result is unaffected by `err2` otherwise). -/
structure Draws where
  nitro : ℚ
  err1 : ℚ
  err2 : ℚ
  deriving Repr, DecidableEq

/-- The test `game_state.get(obstacle_ahead_distance, default +inf) < 100`. -/
def aheadNear (gs : GameState) : Bool :=
  match gs.obstacle_ahead_distance with
  | some d => decide (d < 100)
  | none => false

/-- First block of `decide_action` ("Check if obstacle ahead"), acting on the
freshly initialised all-`False` action dictionary. -/
def obstacleStep (gs : GameState) : ActionSet :=
  let actions : ActionSet :=
    { accelerate := false, brake := false, turn_left := false
      turn_right := false, use_nitro := false }
  if aheadNear gs then
    if gs.obstacle_left.getD false then { actions with turn_right := true }
    else if gs.obstacle_right.getD false then { actions with turn_left := true }
    else { actions with brake := true }
  else { actions with accelerate := true }

/-- Second block of `decide_action` ("Use nitro strategically"). -/
def nitroStep (ai : OpponentAI) (gs : GameState) (nitroDraw : ℚ)
    (actions : ActionSet) : ActionSet :=
  if gs.nitro_available.getD 0 > 50 ∧ gs.clear_path.getD true = true ∧
      nitroDraw < ai.aggression then
    { actions with use_nitro := true }
  else actions

/-- Third block of `decide_action` ("Add skill-based errors"). -/
def fumbleStep (ai : OpponentAI) (err1 err2 : ℚ) (actions : ActionSet) :
    ActionSet :=
  if err1 > ai.skill_level then
    if err2 < 0.5 then { actions with brake := true, accelerate := false }
    else actions
  else actions

/-- `OpponentAI.decide_action(game_state)`: the three blocks run in order on
the action dictionary. -/
def decide_action (ai : OpponentAI) (gs : GameState) (d : Draws) : ActionSet :=
  fumbleStep ai d.err1 d.err2 (nitroStep ai gs d.nitro (obstacleStep gs))

/-- The region of the unit square of `(err1, err2)` draw pairs on which the
fumble override of `decide_action` fires: `err1 > skill_level` and
`err2 < 0.5`. -/
def fumbleRegion (skill : ℚ) : Set (ℝ × ℝ) :=
  {p | (p.1 ∈ Set.Ico (0 : ℝ) 1 ∧ p.2 ∈ Set.Ico (0 : ℝ) 1) ∧
    ((skill : ℝ) < p.1 ∧ p.2 < 1 / 2)}

/-- The part of the unit interval of `nitro` draws on which the nitro trial
`random.random() < aggression` succeeds. -/
def nitroRegion (aggression : ℚ) : Set ℝ :=
  {x | x ∈ Set.Ico (0 : ℝ) 1 ∧ x < (aggression : ℝ)}

/-- The region of the unit cube of `(nitro, (err1, err2))` draw triples on
which both the nitro trial and the fumble override fire. -/
def nitroFumbleRegion (aggression skill : ℚ) : Set (ℝ × ℝ × ℝ) :=
  {t | (t.1 ∈ Set.Ico (0 : ℝ) 1 ∧ t.1 < (aggression : ℝ)) ∧
    t.2 ∈ fumbleRegion skill}

/-- An obstacle `(x, y, radius)` as unpacked by `_intersects_obstacle`.
Positions are real numbers because the code takes square roots. -/
structure Obstacle where
  x : ℝ
  y : ℝ
  radius : ℝ

/-- `OpponentAI._point_to_line_distance(px, py, x1, y1, x2, y2)`: distance
from the point to the line segment, with the projection parameter clamped
to `[0, 1]`; degenerate segments fall back to point distance. -/
noncomputable def _point_to_line_distance (px py x1 y1 x2 y2 : ℝ) : ℝ :=
  let dx := x2 - x1
  let dy := y2 - y1
  if dx = 0 ∧ dy = 0 then
    Real.sqrt ((px - x1) ^ 2 + (py - y1) ^ 2)
  else
    let t := max 0 (min 1 (((px - x1) * dx + (py - y1) * dy) / (dx ^ 2 + dy ^ 2)))
    let closest_x := x1 + t * dx
    let closest_y := y1 + t * dy
    Real.sqrt ((px - closest_x) ^ 2 + (py - closest_y) ^ 2)

/-- `OpponentAI._intersects_obstacle(start, end, obstacle)`: the segment
comes within `radius + 20` (fixed safety margin) of the obstacle centre. -/
noncomputable def _intersects_obstacle (s e : ℝ × ℝ) (o : Obstacle) : Prop :=
  _point_to_line_distance o.x o.y s.1 s.2 e.1 e.2 < o.radius + 20

/-- `path_clear`: the loop in `calculate_path` that breaks on the first
intersecting obstacle succeeds iff no obstacle in the list intersects. -/
def path_clear (s e : ℝ × ℝ) (obstacles : List Obstacle) : Prop :=
  ∀ o ∈ obstacles, ¬ _intersects_obstacle s e o

/- `OpponentAI.calculate_path(current_position, target_position,
obstacles)`: return the target when the direct segment is clear, else the
first of the two fixed lateral alternatives whose segment from `current` is
clear, else `current`. -/
open Classical in
noncomputable def calculate_path (current target : ℝ × ℝ)
    (obstacles : List Obstacle) : ℝ × ℝ :=
  if path_clear current target obstacles then target
  else if path_clear current (current.1 - 50, current.2 + 50) obstacles then
    (current.1 - 50, current.2 + 50)
  else if path_clear current (current.1 + 50, current.2 + 50) obstacles then
    (current.1 + 50, current.2 + 50)
  else current

/-- One player-performance record.  The dictionary keys read by
`DifficultyAdjuster` are modelled as rational-valued fields (`won` is the
numeric truth value used both by `np.mean` and by the truthiness test in
`_train_model`). -/
structure PerformanceRecord where
  won : ℚ
  time : ℚ
  collisions : ℚ
  level : ℚ
  car_speed : ℚ
  car_handling : ℚ
  car_acceleration : ℚ
  deriving Repr, DecidableEq

/-- A throwaway performance record used in concrete witnesses. -/
def sampleRecord (w : ℚ) : PerformanceRecord :=
  { won := w, time := 0, collisions := 0, level := 1, car_speed := 100
    car_handling := 50, car_acceleration := 50 }

/-- `DifficultyAdjuster.record_performance` on the history list: append,
then `pop(0)` once the length exceeds 10. -/
def record_performance (history : List PerformanceRecord)
    (p : PerformanceRecord) : List PerformanceRecord :=
  let h := history ++ [p]
  if h.length > 10 then h.tail else h

/-- `np.mean` on a list of rationals (only ever applied to non-empty
lists by the embedded code). -/
def npMean (xs : List ℚ) : ℚ := xs.sum / xs.length

/-- `DifficultyAdjuster.calculate_difficulty`. -/
def calculate_difficulty (history : List PerformanceRecord) : String :=
  if history.length < 3 then "medium"
  else
    let avg_win_rate := npMean (history.map (·.won))
    let _avg_completion_time := npMean (history.map (·.time))
    let avg_collisions := npMean (history.map (·.collisions))
    if avg_win_rate > 0.8 ∧ avg_collisions < 2 then "hard"
    else if avg_win_rate > 0.6 ∧ avg_collisions < 3 then "medium"
    else if avg_win_rate < 0.4 ∨ avg_collisions > 5 then "easy"
    else "medium"

/-- Modelled from the spec: the state of an `sklearn.linear_model.
LinearRegression` after a successful `fit` — a linear model
(coefficients and intercept); `predict` evaluates it on a feature row.
The library itself is outside the repository. -/
structure LinModel where
  coef : List ℚ
  intercept : ℚ
  deriving Repr, DecidableEq

/-- Modelled from the spec: `LinearRegression.predict` on one feature row
is the fitted linear function of the features. -/
def LinModel.predictOne (m : LinModel) (features : List ℚ) : ℚ :=
  m.intercept + (List.zipWith (· * ·) m.coef features).sum

/-- Modelled from the spec: `LinearRegression.fit` abstracted as an oracle
that either produces a fitted model or fails (`none` standing for the
exception the Python code catches). -/
def FitOracle : Type :=
  List (List ℚ) → List ℚ → Option LinModel

/-- The state of a `DifficultyAdjuster` instance. -/
structure DifficultyAdjuster where
  performance_history : List PerformanceRecord
  model : LinModel
  trained : Bool
  deriving Repr, DecidableEq

/-- `DifficultyAdjuster.__init__`. -/
def mkDifficultyAdjuster : DifficultyAdjuster :=
  { performance_history := [], model := { coef := [], intercept := 0 }
    trained := false }

/-- `DifficultyAdjuster.record_performance` on the instance. -/
def recordPerf (st : DifficultyAdjuster) (p : PerformanceRecord) :
    DifficultyAdjuster :=
  { st with performance_history := record_performance st.performance_history p }

/-- The training feature rows built by `_train_model`. -/
def trainX (st : DifficultyAdjuster) : List (List ℚ) :=
  st.performance_history.map
    (fun p => [p.level, p.car_speed, p.car_handling, p.car_acceleration])

/-- The training labels built by `_train_model`: `1 if perf.get(won, False) else 0`, with Python truthiness of the numeric `won` value. -/
def trainY (st : DifficultyAdjuster) : List ℚ :=
  st.performance_history.map (fun p => if p.won ≠ 0 then (1 : ℚ) else 0)

/-- `DifficultyAdjuster._train_model`: no-op below 5 records; otherwise fit
on the history; an exception inside `fit` is caught and leaves
`trained = False`. -/
def _train_model (fit : FitOracle) (st : DifficultyAdjuster) :
    DifficultyAdjuster :=
  if st.performance_history.length < 5 then st
  else
    match fit (trainX st) (trainY st) with
    | some m => { st with model := m, trained := true }
    | none => { st with trained := false }

/-- The `car_stats` dictionary read by `predict_performance`, `Option`
fields mirroring `dict.get` with defaults 100 / 50 / 50. -/
structure CarStats where
  speed : Option ℚ
  handling : Option ℚ
  acceleration : Option ℚ
  deriving Repr, DecidableEq

/-- `DifficultyAdjuster.predict_performance(level, car_stats)`: train once
when untrained with ≥5 records; when trained, predict and clamp to
`[0, 1]`; otherwise return the 0.5 default.  Returns the value and the
post-call instance state. -/
def predict_performance (fit : FitOracle) (st : DifficultyAdjuster)
    (level : ℚ) (car : CarStats) : ℚ × DifficultyAdjuster :=
  let st1 :=
    if st.trained = false ∧ 5 ≤ st.performance_history.length then
      _train_model fit st
    else st
  if st1.trained then
    let features := [level, car.speed.getD 100, car.handling.getD 50,
      car.acceleration.getD 50]
    let win_probability := st1.model.predictOne features
    (max 0 (min 1 win_probability), st1)
  else (0.5, st1)

/-- The reachability invariant of `DifficultyAdjuster`: the model is only
ever trained once the history holds at least 5 records. -/
def trainedInv (st : DifficultyAdjuster) : Prop :=
  st.trained = true → 5 ≤ st.performance_history.length

/-- A concrete untrained adjuster with 5 records, used in witnesses. -/
def fiveRecordState : DifficultyAdjuster :=
  { performance_history := List.replicate 5 (sampleRecord 1)
    model := { coef := [], intercept := 0 }, trained := false }

/-- One ambient traffic vehicle (the `type` key is called `vtype` here
because `type` is reserved in Lean). -/
structure Vehicle where
  id : String
  position : ℚ
  speed : ℚ
  lane : ℤ
  vtype : String
  deriving Repr, DecidableEq

/-- The body of the `update_traffic` loop for one vehicle: advance the
position by `speed * delta_time`; with the lane-change draw `r < 0.01`,
shift the lane by the `random.choice([-1, 1])` value `dir`, clamped to
`[0, 2]`. -/
def updateVehicle (delta_time : ℚ) (v : Vehicle) (r : ℚ) (dir : ℤ) : Vehicle :=
  let v := { v with position := v.position + v.speed * delta_time }
  if r < 0.01 then { v with lane := max 0 (min 2 (v.lane + dir)) } else v

/-- `TrafficGenerator.update_traffic(vehicles, delta_time)`: the loop over
the vehicle list, the `i`-th vehicle consuming the `i`-th pair of draws. -/
def update_traffic (vehicles : List Vehicle) (delta_time : ℚ)
    (draws : ℕ → ℚ × ℤ) : List Vehicle :=
  vehicles.mapIdx (fun i v => updateVehicle delta_time v (draws i).1 (draws i).2)

end AiModels

namespace AiModels

/-- C1: for every tier, level, inputs and noise draw in `[-10, 10]`,
`calculate_speed` returns `max 50 s` where `s` is the documented pipeline:
start from `base_speed * skill_level`, add `level * 5`, multiply by `0.7`
when obstacles are nearby, multiply by `1 + aggression * 0.2` when
`player_distance > 0`, by `0.9` when `player_distance < -100` (otherwise
unchanged), then add the noise; and the result is never below the floor 50. -/
theorem calculate_speed_spec (tier : String) (level : ℤ) (track_position : ℚ)
    (obstacles_nearby : Bool) (player_distance : ℚ) (noise : ℚ)
    (hlo : -10 ≤ noise) (hhi : noise ≤ 10) :
    calculate_speed (mkOpponentAI tier level) track_position obstacles_nearby
        player_distance noise =
      max 50
        ((((100 * _get_skill_level tier + (level : ℚ) * 5) *
              (if obstacles_nearby then 0.7 else 1)) *
            (if player_distance > 0 then 1 + _get_aggression tier * 0.2
             else if player_distance < -100 then 0.9 else 1)) + noise) ∧
    50 ≤ calculate_speed (mkOpponentAI tier level) track_position
        obstacles_nearby player_distance noise := by
  constructor
  · unfold calculate_speed mkOpponentAI
    rcases obstacles_nearby with _ | _ <;>
      simp only [Bool.false_eq_true, if_false, if_true, max_comm] <;>
      split_ifs <;> ring_nf
  · exact le_max_right _ _

/-- Witness for C1 at a concrete input. -/
theorem calculate_speed_spec_witness :
    50 ≤ calculate_speed (mkOpponentAI "easy" 2) 7 true (-50) 3 :=
  (calculate_speed_spec "easy" 2 7 true (-50) 3 (by norm_num) (by norm_num)).2

/-- C2 counterexample: with an obstacle 50 units ahead and BOTH
`obstacle_left` and `obstacle_right` set, `decide_action` (here with draws
that make the nitro and fumble trials fail) does not brake as the claim
asserts: the `obstacle_left` branch wins and it turns right, and despite
`obstacle_right` being set it does not turn left. -/
theorem decide_action_obstacle_counterexample :
    aheadNear ⟨some 50, some true, some true, some 0, some true⟩ = true ∧
    (decide_action (mkOpponentAI "medium" 1)
        ⟨some 50, some true, some true, some 0, some true⟩ ⟨1, 0, 1⟩).brake
      = false ∧
    (decide_action (mkOpponentAI "medium" 1)
        ⟨some 50, some true, some true, some 0, some true⟩ ⟨1, 0, 1⟩).turn_left
      = false ∧
    (decide_action (mkOpponentAI "medium" 1)
        ⟨some 50, some true, some true, some 0, some true⟩ ⟨1, 0, 1⟩).turn_right
      = true := by
  refine ⟨?_, ?_, ?_, ?_⟩ <;>
    norm_num [decide_action, fumbleStep, nitroStep, obstacleStep, aheadNear,
      mkOpponentAI, _get_skill_level, _get_aggression]

/-- C2 (amended): the obstacle block of `decide_action` runs first, before
the nitro and fumble blocks; within the near threshold (100 units) it turns
right when `obstacle_left` is set (this branch wins even when both flags are
set), else turns left when `obstacle_right` is set, and brakes when NEITHER
side flag is set; with no obstacle within the threshold it accelerates. -/
theorem decide_action_obstacle_spec (ai : OpponentAI) (gs : GameState)
    (d : Draws) :
    decide_action ai gs d =
      fumbleStep ai d.err1 d.err2 (nitroStep ai gs d.nitro (obstacleStep gs)) ∧
    (aheadNear gs = true → gs.obstacle_left.getD false = true →
      obstacleStep gs = ⟨false, false, false, true, false⟩) ∧
    (aheadNear gs = true → gs.obstacle_left.getD false = false →
      gs.obstacle_right.getD false = true →
      obstacleStep gs = ⟨false, false, true, false, false⟩) ∧
    (aheadNear gs = true → gs.obstacle_left.getD false = false →
      gs.obstacle_right.getD false = false →
      obstacleStep gs = ⟨false, true, false, false, false⟩) ∧
    (aheadNear gs = false → obstacleStep gs = ⟨true, false, false, false, false⟩) := by
  refine ⟨rfl, ?_, ?_, ?_, ?_⟩ <;> intros <;> simp_all [obstacleStep]

/-- Witness for the amended C2 theorem: near obstacle, both side flags set,
the obstacle block turns right. -/
theorem decide_action_obstacle_spec_witness :
    obstacleStep ⟨some 50, some true, some true, some 0, some true⟩ =
      ⟨false, false, false, true, false⟩ :=
  (decide_action_obstacle_spec (mkOpponentAI "medium" 1)
      ⟨some 50, some true, some true, some 0, some true⟩ ⟨0, 0, 0⟩).2.1
    (by norm_num [aheadNear]) (by norm_num)

/-- C10: for every AI instance, snapshot and outcome of the draws, the
returned `ActionSet` never has `accelerate` and `brake` true together. -/
theorem decide_action_not_accel_and_brake (ai : OpponentAI) (gs : GameState)
    (d : Draws) :
    ¬((decide_action ai gs d).accelerate = true ∧
      (decide_action ai gs d).brake = true) := by
  unfold decide_action fumbleStep nitroStep obstacleStep
  split_ifs <;> simp

/-- C8: constructing an `OpponentAI` with any unrecognised tier string yields
exactly the derived parameters of medium (reaction time 0.5, aggression 0.5,
skill 0.85, same base speed 100), and every subsequent operation that reads
the instance (`calculate_speed`, `decide_action`) behaves exactly as for
tier `medium`. -/
theorem unknown_tier_behaves_as_medium (t : String) (level : ℤ)
    (h : t ≠ "easy" ∧ t ≠ "medium" ∧ t ≠ "hard" ∧ t ≠ "expert") :
    (mkOpponentAI t level).reaction_time = 0.5 ∧
    (mkOpponentAI t level).aggression = 0.5 ∧
    (mkOpponentAI t level).skill_level = 0.85 ∧
    (mkOpponentAI t level).base_speed = (mkOpponentAI "medium" level).base_speed ∧
    (∀ tp obn pd noise,
      calculate_speed (mkOpponentAI t level) tp obn pd noise =
        calculate_speed (mkOpponentAI "medium" level) tp obn pd noise) ∧
    (∀ gs d, decide_action (mkOpponentAI t level) gs d =
        decide_action (mkOpponentAI "medium" level) gs d) := by
  obtain ⟨h1, h2, h3, h4⟩ := h
  refine ⟨?_, ?_, ?_, rfl, ?_, ?_⟩ <;>
    simp [mkOpponentAI, _get_reaction_time, _get_aggression, _get_skill_level,
      h1, h2, h3, h4, calculate_speed, decide_action, obstacleStep, nitroStep,
      fumbleStep]

/-- Witness for C8 at the concrete unknown tier string "nightmare". -/
theorem unknown_tier_behaves_as_medium_witness :
    (mkOpponentAI "nightmare" 3).skill_level = 0.85 :=
  (unknown_tier_behaves_as_medium "nightmare" 3
      ⟨by decide, by decide, by decide, by decide⟩).2.2.1

/-- For `0 ≤ skill`, the fumble region of the unit square is the rectangle
`Ioo skill 1 ×ˢ Ico 0 (1/2)`. -/
lemma fumbleRegion_eq (s : ℚ) (h0 : 0 ≤ s) :
    fumbleRegion s = Set.Ioo ((s : ℝ)) 1 ×ˢ Set.Ico (0 : ℝ) (1 / 2) := by
  ext p
  simp only [fumbleRegion, Set.mem_setOf_eq, Set.mem_prod, Set.mem_Ioo,
    Set.mem_Ico]
  constructor
  · rintro ⟨⟨⟨_, hlt1⟩, h2lo, _⟩, hs, hhalf⟩
    exact ⟨⟨hs, hlt1⟩, h2lo, hhalf⟩
  · rintro ⟨⟨hs, hlt1⟩, h2lo, hhalf⟩
    have hs0 : (0 : ℝ) ≤ (s : ℝ) := by exact_mod_cast h0
    exact ⟨⟨⟨le_trans hs0 hs.le, hlt1⟩, h2lo, lt_trans hhalf (by norm_num)⟩,
      hs, hhalf⟩

/-- The Lebesgue measure of the fumble region: `(1 - skill) * (1/2)`. -/
lemma fumbleRegion_volume (s : ℚ) (h0 : 0 ≤ s) (h1 : s ≤ 1) :
    MeasureTheory.volume (fumbleRegion s) =
      ENNReal.ofReal ((1 - (s : ℝ)) * (1 / 2)) := by
  have hcast : (s : ℝ) ≤ 1 := by exact_mod_cast h1
  rw [fumbleRegion_eq s h0, MeasureTheory.Measure.volume_eq_prod,
    MeasureTheory.Measure.prod_prod, Real.volume_Ioo, Real.volume_Ico,
    ← ENNReal.ofReal_mul (by linarith)]
  norm_num

/-- C3 counterexample: for the `medium` tier (skill 0.85), the probability
that the fumble override fires — the Lebesgue measure of the set of
`(err1, err2)` draw pairs in the unit square on which `decide_action`
forces the brake — is NOT `1 − skill_level` (it is `(1 − 0.85) × 0.5`). -/
theorem decide_action_fumble_counterexample :
    MeasureTheory.volume (fumbleRegion (mkOpponentAI "medium" 1).skill_level) ≠
      ENNReal.ofReal (1 - ((mkOpponentAI "medium" 1).skill_level : ℝ)) := by
  have hs : (mkOpponentAI "medium" 1).skill_level = 0.85 := rfl
  rw [hs, fumbleRegion_volume 0.85 (by norm_num) (by norm_num)]
  intro h
  rw [ENNReal.ofReal_eq_ofReal_iff (by norm_num) (by norm_num)] at h
  norm_num at h

/-- C3 (amended): for every snapshot and draw triple, the fumble override —
forcing brake and clearing accelerate on top of the obstacle and nitro
result of the earlier blocks — fires exactly when `err1 > skill_level` and `err2 < 1/2`;
for `skill_level ∈ [0, 1]` the probability of this over the uniform draws
is `(1 − skill_level) × 0.5` (not `1 − skill_level`); and the joint
probability with the nitro trial factorises, so the fumble draw is
independent of the Bernoulli trial of the nitro step. -/
theorem decide_action_fumble_spec (ai : OpponentAI)
    (h0 : 0 ≤ ai.skill_level) (h1 : ai.skill_level ≤ 1) :
    (∀ gs d, decide_action ai gs d =
      if ai.skill_level < d.err1 ∧ d.err2 < 1 / 2 then
        { nitroStep ai gs d.nitro (obstacleStep gs) with
            brake := true, accelerate := false }
      else nitroStep ai gs d.nitro (obstacleStep gs)) ∧
    MeasureTheory.volume (fumbleRegion ai.skill_level) =
      ENNReal.ofReal ((1 - (ai.skill_level : ℝ)) * (1 / 2)) ∧
    MeasureTheory.volume (nitroFumbleRegion ai.aggression ai.skill_level) =
      MeasureTheory.volume (nitroRegion ai.aggression) *
        MeasureTheory.volume (fumbleRegion ai.skill_level) := by
  refine ⟨?_, fumbleRegion_volume ai.skill_level h0 h1, ?_⟩
  · intro gs d
    unfold decide_action fumbleStep
    have h05 : (0.5 : ℚ) = 1 / 2 := by norm_num
    rw [h05]
    by_cases hA : ai.skill_level < d.err1 <;> by_cases hB : d.err2 < 1 / 2 <;>
      simp [hA, hB, gt_iff_lt]
  · have hset : nitroFumbleRegion ai.aggression ai.skill_level =
        nitroRegion ai.aggression ×ˢ fumbleRegion ai.skill_level := rfl
    rw [hset, MeasureTheory.Measure.volume_eq_prod,
      MeasureTheory.Measure.prod_prod]

/-- C4: `calculate_path` is a pure, deterministic function that returns the
target whenever no obstacle intersects the direct segment (in particular for
an empty obstacle list); otherwise returns the first of exactly the two
alternatives `(x − 50, y + 50)`, `(x + 50, y + 50)` whose segment from
`current` intersects no obstacle, and returns `current` when both are
blocked; a segment intersects an obstacle iff the point-to-segment distance
(projection parameter clamped to `[0, 1]`) is strictly below `radius + 20`. -/
theorem calculate_path_spec (current target : ℝ × ℝ)
    (obstacles : List Obstacle) :
    (∀ o, _intersects_obstacle current target o ↔
      _point_to_line_distance o.x o.y current.1 current.2 target.1 target.2 <
        o.radius + 20) ∧
    (obstacles = [] → calculate_path current target obstacles = target) ∧
    (path_clear current target obstacles →
      calculate_path current target obstacles = target) ∧
    (¬ path_clear current target obstacles →
      path_clear current (current.1 - 50, current.2 + 50) obstacles →
      calculate_path current target obstacles =
        (current.1 - 50, current.2 + 50)) ∧
    (¬ path_clear current target obstacles →
      ¬ path_clear current (current.1 - 50, current.2 + 50) obstacles →
      path_clear current (current.1 + 50, current.2 + 50) obstacles →
      calculate_path current target obstacles =
        (current.1 + 50, current.2 + 50)) ∧
    (¬ path_clear current target obstacles →
      ¬ path_clear current (current.1 - 50, current.2 + 50) obstacles →
      ¬ path_clear current (current.1 + 50, current.2 + 50) obstacles →
      calculate_path current target obstacles = current) := by
  refine ⟨fun o => Iff.rfl, ?_, ?_, ?_, ?_, ?_⟩
  · rintro rfl
    simp [calculate_path, path_clear]
  · intro h1
    simp [calculate_path, h1]
  · intro h1 h2
    simp [calculate_path, h1, h2]
  · intro h1 h2 h3
    simp [calculate_path, h1, h2, h3]
  · intro h1 h2 h3
    simp [calculate_path, h1, h2, h3]

/-- Witness for C4 at a concrete input with no obstacles. -/
theorem calculate_path_spec_witness :
    calculate_path (0, 0) (0, 100) [] = (0, 100) :=
  (calculate_path_spec (0, 0) (0, 100) []).2.1 rfl

/-- One `record_performance` call on a history of at most 10 records keeps
exactly the latest records: it is `drop` to the capacity of 10. -/
lemma record_performance_eq_drop (l : List PerformanceRecord)
    (x : PerformanceRecord) (hl : l.length ≤ 10) :
    record_performance l x = (l ++ [x]).drop ((l ++ [x]).length - 10) := by
  simp only [record_performance, List.length_append, List.length_cons,
    List.length_nil, Nat.zero_add]
  rcases Nat.lt_or_ge l.length 10 with h | h
  · rw [if_neg (by omega)]
    have h0 : l.length + 1 - 10 = 0 := by omega
    rw [h0, List.drop_zero]
  · have h10 : l.length = 10 := le_antisymm hl h
    rw [if_pos (by omega)]
    have h1 : l.length + 1 - 10 = 1 := by omega
    rw [h1, List.drop_one]

/-- Folding `record_performance` from any history within capacity retains
exactly the most recent 10 entries in order. -/
lemma foldl_record_performance (xs : List PerformanceRecord) :
    ∀ l : List PerformanceRecord, l.length ≤ 10 →
      xs.foldl record_performance l = (l ++ xs).drop ((l ++ xs).length - 10) := by
  induction xs with
  | nil =>
    intro l hl
    simp only [List.foldl_nil, List.append_nil]
    have h0 : l.length - 10 = 0 := by omega
    rw [h0, List.drop_zero]
  | cons x xs ih =>
    intro l hl
    rw [List.foldl_cons, record_performance_eq_drop l x hl]
    have hklen : (l ++ [x]).length - 10 ≤ (l ++ [x]).length := by omega
    have hlen2 :
        ((l ++ [x]).drop ((l ++ [x]).length - 10)).length ≤ 10 := by
      simp only [List.length_drop]
      omega
    rw [ih _ hlen2, ← List.drop_append_of_le_length hklen, List.drop_drop]
    have hassoc : (l ++ [x]) ++ xs = l ++ x :: xs := by
      simp [List.append_assoc]
    rw [hassoc]
    congr 1
    simp only [List.length_append, List.length_drop, List.length_cons,
      List.length_nil, Nat.zero_add]
    omega

/-- C5: starting from the empty history of a fresh `DifficultyAdjuster`,
after any sequence of `record_performance` calls the history never exceeds
10 records and holds exactly the most recent insertions in insertion order;
in particular after 11 insertions the first inserted record is gone and the
2nd through 11th remain in order. -/
theorem record_performance_fifo (xs : List PerformanceRecord) :
    (xs.foldl record_performance []).length ≤ 10 ∧
    xs.foldl record_performance [] = xs.drop (xs.length - 10) ∧
    (xs.length = 11 → xs.foldl record_performance [] = xs.tail) := by
  have h := foldl_record_performance xs [] (by simp)
  simp only [List.nil_append] at h
  refine ⟨?_, h, ?_⟩
  · rw [h]
    simp only [List.length_drop]
    omega
  · intro h11
    rw [h, h11, List.drop_one]

/-- Witness for C5: 11 concrete insertions keep records 2 through 11. -/
theorem record_performance_fifo_witness :
    ([sampleRecord 1, sampleRecord 2, sampleRecord 3, sampleRecord 4,
      sampleRecord 5, sampleRecord 6, sampleRecord 7, sampleRecord 8,
      sampleRecord 9, sampleRecord 10,
      sampleRecord 11].foldl record_performance []) =
      [sampleRecord 2, sampleRecord 3, sampleRecord 4, sampleRecord 5,
       sampleRecord 6, sampleRecord 7, sampleRecord 8, sampleRecord 9,
       sampleRecord 10, sampleRecord 11] :=
  (record_performance_fifo _).2.2 (by simp)

/-- C6: `calculate_difficulty` returns "medium" on fewer than 3 records;
otherwise it applies the documented threshold rules, in order, to the means
of `won` and `collisions` over the entire retained history. -/
theorem calculate_difficulty_spec (history : List PerformanceRecord) :
    (history.length < 3 → calculate_difficulty history = "medium") ∧
    (3 ≤ history.length →
      calculate_difficulty history =
        (if (history.map (·.won)).sum / (history.length : ℚ) > 0.8 ∧
            (history.map (·.collisions)).sum / (history.length : ℚ) < 2 then
          "hard"
         else if (history.map (·.won)).sum / (history.length : ℚ) > 0.6 ∧
            (history.map (·.collisions)).sum / (history.length : ℚ) < 3 then
          "medium"
         else if (history.map (·.won)).sum / (history.length : ℚ) < 0.4 ∨
            (history.map (·.collisions)).sum / (history.length : ℚ) > 5 then
          "easy"
         else "medium")) := by
  constructor
  · intro h
    simp [calculate_difficulty, h]
  · intro h
    have hlen : ¬ history.length < 3 := by omega
    simp only [calculate_difficulty, npMean, List.length_map, hlen, if_false]

/-- Witness for C6: the empty history yields "medium". -/
theorem calculate_difficulty_spec_witness :
    calculate_difficulty [] = "medium" :=
  (calculate_difficulty_spec []).1 (by simp)

/-- Witness for the amended C3 theorem at the `medium` tier. -/
theorem decide_action_fumble_spec_witness :
    MeasureTheory.volume (fumbleRegion (mkOpponentAI "medium" 1).skill_level) =
      ENNReal.ofReal
        ((1 - ((mkOpponentAI "medium" 1).skill_level : ℝ)) * (1 / 2)) :=
  (decide_action_fumble_spec (mkOpponentAI "medium" 1)
      (by rw [show (mkOpponentAI "medium" 1).skill_level = 0.85 from rfl]
          norm_num)
      (by rw [show (mkOpponentAI "medium" 1).skill_level = 0.85 from rfl]
          norm_num)).2.1

/-- C7: a fresh adjuster satisfies the invariant "trained implies at least
5 records"; the invariant is preserved by `record_performance` (which also
never changes `trained`) and by `predict_performance`.  Under the
invariant, any call with fewer than 5 records returns exactly 0.5 and
leaves the state unchanged.  When untrained with at least 5 records the
call routes through exactly one `_train_model` attempt; an oracle failure
is caught, leaving `trained = false` and the 0.5 default, with no exception
(the function is total); an oracle success installs the model, sets
`trained`, and returns the prediction clamped to `[0, 1]`.  Once trained,
a call changes nothing (so no further training attempt ever occurs) and
the returned value is always within `[0, 1]`. -/
theorem predict_performance_spec (fit : FitOracle) (st : DifficultyAdjuster)
    (level : ℚ) (car : CarStats) :
    trainedInv mkDifficultyAdjuster ∧
    (∀ p, (recordPerf st p).trained = st.trained) ∧
    (∀ p, trainedInv st → trainedInv (recordPerf st p)) ∧
    (trainedInv st → trainedInv (predict_performance fit st level car).2) ∧
    (trainedInv st → st.performance_history.length < 5 →
      predict_performance fit st level car = (0.5, st)) ∧
    (st.trained = false → 5 ≤ st.performance_history.length →
      (predict_performance fit st level car).2 = _train_model fit st) ∧
    (st.trained = false → 5 ≤ st.performance_history.length →
      fit (trainX st) (trainY st) = none →
      predict_performance fit st level car =
        (0.5, { st with trained := false })) ∧
    (∀ m, st.trained = false → 5 ≤ st.performance_history.length →
      fit (trainX st) (trainY st) = some m →
      predict_performance fit st level car =
        (max 0 (min 1 (m.predictOne [level, car.speed.getD 100,
            car.handling.getD 50, car.acceleration.getD 50])),
          { st with model := m, trained := true })) ∧
    (st.trained = true → (predict_performance fit st level car).2 = st) ∧
    ((predict_performance fit st level car).2.trained = true →
      0 ≤ (predict_performance fit st level car).1 ∧
      (predict_performance fit st level car).1 ≤ 1) := by
  have hist_train : (_train_model fit st).performance_history =
      st.performance_history := by
    simp only [_train_model]
    split_ifs
    · rfl
    · cases fit (trainX st) (trainY st) <;> rfl
  refine ⟨?_, ?_, ?_, ?_, ?_, ?_, ?_, ?_, ?_, ?_⟩
  · intro h
    simp [mkDifficultyAdjuster] at h
  · intro p
    rfl
  · intro p hInv htr
    have h5 := hInv htr
    simp only [recordPerf, record_performance, List.length_append,
      List.length_cons, List.length_nil, Nat.zero_add]
    split_ifs with h <;> simp only [List.length_tail, List.length_append,
      List.length_cons, List.length_nil] <;> omega
  · intro hInv
    simp only [predict_performance]
    by_cases hg : st.trained = false ∧ 5 ≤ st.performance_history.length
    · rw [if_pos hg]
      split_ifs with ht <;>
        · intro _
          show 5 ≤ (_train_model fit st).performance_history.length
          rw [hist_train]
          exact hg.2
    · rw [if_neg hg]
      split_ifs with ht <;> exact hInv
  · intro hInv hlt
    have htr : st.trained = false := by
      rcases h : st.trained with _ | _
      · rfl
      · exact absurd (hInv h) (by omega)
    have hg : ¬ (st.trained = false ∧ 5 ≤ st.performance_history.length) := by
      intro hc
      omega
    simp only [predict_performance]
    rw [if_neg hg]
    split_ifs with ht
    · rw [htr] at ht
      exact absurd ht (by simp)
    · rfl
  · intro htr h5
    have hg : st.trained = false ∧ 5 ≤ st.performance_history.length :=
      ⟨htr, h5⟩
    simp only [predict_performance]
    rw [if_pos hg]
    split_ifs <;> rfl
  · intro htr h5 hfit
    have hg : st.trained = false ∧ 5 ≤ st.performance_history.length :=
      ⟨htr, h5⟩
    simp only [predict_performance]
    rw [if_pos hg]
    simp only [_train_model,
      if_neg (by omega : ¬ st.performance_history.length < 5), hfit]
    simp
  · intro m htr h5 hfit
    have hg : st.trained = false ∧ 5 ≤ st.performance_history.length :=
      ⟨htr, h5⟩
    simp only [predict_performance]
    rw [if_pos hg]
    simp only [_train_model,
      if_neg (by omega : ¬ st.performance_history.length < 5), hfit]
    simp
  · intro htr
    have hg : ¬ (st.trained = false ∧ 5 ≤ st.performance_history.length) := by
      simp [htr]
    simp only [predict_performance]
    rw [if_neg hg]
    split_ifs <;> rfl
  · simp only [predict_performance]
    by_cases hg : st.trained = false ∧ 5 ≤ st.performance_history.length
    · rw [if_pos hg]
      split_ifs with ht
      · intro _
        exact ⟨le_max_left 0 _, max_le (by norm_num) (min_le_left 1 _)⟩
      · intro htr
        exact absurd htr ht
    · rw [if_neg hg]
      split_ifs with ht
      · intro _
        exact ⟨le_max_left 0 _, max_le (by norm_num) (min_le_left 1 _)⟩
      · intro htr
        exact absurd htr ht

/-- Witness for C7: an adjuster with 5 records and a failing fit oracle
returns the 0.5 default and stays untrained. -/
theorem predict_performance_spec_witness :
    predict_performance (fun _ _ => none) fiveRecordState 1
        ⟨none, none, none⟩ =
      (0.5, { fiveRecordState with trained := false }) :=
  (predict_performance_spec (fun _ _ => none) fiveRecordState 1
      ⟨none, none, none⟩).2.2.2.2.2.2.1 rfl (by simp [fiveRecordState]) rfl

/-- C9: `update_traffic` maps each vehicle in place (no vehicle added or
removed), the `i`-th vehicle consuming the `i`-th draws: the position
advances by `speed × delta_time`; `id`, `speed` and `vtype` never change;
the lane changes only when the draw of the vehicle is below 0.01, and then by
`dir ∈ {−1, +1}` clamped to `[0, 2]`; in particular when every lane-change
draw fails and `delta_time = 1`, every position moves by exactly the speed
and all lanes are unchanged. -/
theorem update_traffic_spec (vehicles : List Vehicle) (delta_time : ℚ)
    (draws : ℕ → ℚ × ℤ) :
    (update_traffic vehicles delta_time draws).length = vehicles.length ∧
    (∀ (i : ℕ) (hi : i < vehicles.length)
        (hi2 : i < (update_traffic vehicles delta_time draws).length),
      (update_traffic vehicles delta_time draws).get ⟨i, hi2⟩ =
        updateVehicle delta_time (vehicles.get ⟨i, hi⟩) (draws i).1
          (draws i).2) ∧
    (∀ (v : Vehicle) (r : ℚ) (dir : ℤ),
      (updateVehicle delta_time v r dir).id = v.id ∧
      (updateVehicle delta_time v r dir).speed = v.speed ∧
      (updateVehicle delta_time v r dir).vtype = v.vtype ∧
      (updateVehicle delta_time v r dir).position =
        v.position + v.speed * delta_time ∧
      (¬ r < 0.01 → (updateVehicle delta_time v r dir).lane = v.lane) ∧
      (r < 0.01 →
        (updateVehicle delta_time v r dir).lane =
          max 0 (min 2 (v.lane + dir)) ∧
        0 ≤ (updateVehicle delta_time v r dir).lane ∧
        (updateVehicle delta_time v r dir).lane ≤ 2)) ∧
    ((∀ i, ¬ (draws i).1 < 0.01) → delta_time = 1 →
      update_traffic vehicles delta_time draws =
        vehicles.map (fun v => { v with position := v.position + v.speed })) := by
  refine ⟨?_, ?_, ?_, ?_⟩
  · simp [update_traffic]
  · intro i hi hi2
    exact List.get_mapIdx vehicles _ i hi
  · intro v r dir
    refine ⟨?_, ?_, ?_, ?_, ?_, ?_⟩ <;>
      simp only [updateVehicle] <;> split_ifs with h <;>
        simp_all [le_max_iff, max_le_iff, min_le_iff]
  · intro hdraw hdt
    subst hdt
    refine List.ext_get (by simp [update_traffic]) ?_
    intro i h1 h2
    rw [show (update_traffic vehicles 1 draws).get ⟨i, h1⟩ =
        updateVehicle 1 (vehicles.get ⟨i, by
          simpa [update_traffic] using h1⟩) (draws i).1 (draws i).2 from
      List.get_mapIdx vehicles _ i _]
    rw [List.get_map]
    simp [updateVehicle, hdraw i, mul_one]

/-- Witness for C9: one vehicle, a failing lane-change draw, `dt = 1`. -/
theorem update_traffic_spec_witness :
    update_traffic [⟨"traffic_0", 5, 3, 1, "car"⟩] 1 (fun _ => (1, 1)) =
      [⟨"traffic_0", 8, 3, 1, "car"⟩] := by
  have h := (update_traffic_spec
      [⟨"traffic_0", 5, 3, 1, "car"⟩] 1 (fun _ => (1, 1))).2.2.2
      (fun i => by norm_num) rfl
  rw [h]
  simp [Vehicle.mk.injEq]
  norm_num

end AiModels
